import Mathlib

/-!
# Verification of the adex_hd capture/buffer/supervision engine

Shallow embedding of the camera capture core (`src/camera.py`, with the
sibling implementation `src/rtsp-test.py`) and proofs of the frozen claims
about it.  Pure decision logic (quality gating, failure counting, watchdog
triggers, FPS adjustment, filename collision resolution, zoom/pan geometry)
is translated into executable Lean functions; stateful loops become explicit
state-passing step functions folded over input sequences.
-/

namespace AdexHD

/-! ## Configuration constants from `RobustCameraView.__init__` -/

/-- Constant `self.min_hd_width = 1280`. -/
def min_hd_width : Nat := 1280

/-- Constant `self.min_hd_height = 720`. -/
def min_hd_height : Nat := 720

/-- Constant `self.max_consecutive_failures = 15`. -/
def max_consecutive_failures : Nat := 15

/-- The hard-coded stability requirement `stable_frames >= 3` in
`_safe_video_loop` (and `video_loop` of `rtsp-test.py`). -/
def stable_threshold : Nat := 3

/-- Constant `self.min_fps = 15`. -/
def min_fps : ℚ := 15

/-- Constant `self.max_fps = 30`. -/
def max_fps : ℚ := 30

/-! ## C1: quality gate (`_safe_video_loop` lines 460–527, `video_loop`)

One iteration of the streaming loop either fails to read
(`ret` false / `frame is None` / `frame.size == 0`) or yields a frame of
some width and height. -/

/-- The outcome of one `self.cap.read()` as the loop discriminates it. -/
inductive Read where
  | fail : Read
  | frame (w h : Nat) : Read
deriving DecidableEq, Repr

/-- Test `h >= self.min_hd_height and w >= self.min_hd_width`; a failed read
never qualifies. -/
def qualifies (minW minH : Nat) : Read → Bool
  | .fail => false
  | .frame w h => minH ≤ h && minW ≤ w

/-- Update of the loop-local `stable_frames` counter: `stable_frames += 1`
on a qualifying frame, `stable_frames = 0` on a disqualifying or failed
read (lines 466, 486, 517). -/
def qualStep (minW minH : Nat) (s : Nat) (r : Read) : Nat :=
  if qualifies minW minH r then s + 1 else 0

/-- Value of `stable_frames` after processing a sequence of reads from a fresh loop
(`stable_frames = 0` at loop entry). -/
def stableAfter (minW minH : Nat) (rs : List Read) : Nat :=
  rs.foldl (qualStep minW minH) 0

/-- Whether the read at index `i` is published to the frame buffer: the
read qualifies and, after counting it, `stable_frames >= K`
(`if stable_frames >= 3:` at line 469 with `K = stable_threshold`). -/
def acceptedAt (minW minH K : Nat) (rs : List Read) (i : Nat) : Bool :=
  qualifies minW minH (rs.getD i .fail) &&
    decide (K ≤ stableAfter minW minH (rs.take (i + 1)))

theorem stableAfter_append (minW minH : Nat) (l : List Read) (r : Read) :
    stableAfter minW minH (l ++ [r]) =
      if qualifies minW minH r then stableAfter minW minH l + 1 else 0 := by
  simp [stableAfter, List.foldl_append, qualStep]

theorem stableAfter_le_length (minW minH : Nat) (l : List Read) :
    stableAfter minW minH l ≤ l.length := by
  induction l using List.reverseRecOn with
  | nil => simp [stableAfter]
  | append_singleton l r ih =>
    rw [stableAfter_append]
    split
    · simp only [List.length_append, List.length_singleton]
      omega
    · simp

/-- The stable counter reaches `K` exactly when the last `K` reads all
qualify. -/
theorem le_stableAfter_iff (minW minH K : Nat) (l : List Read) :
    K ≤ stableAfter minW minH l ↔
      K ≤ l.length ∧
        ∀ j, l.length - K ≤ j → j < l.length →
          qualifies minW minH (l.getD j .fail) = true := by
  induction l using List.reverseRecOn generalizing K with
  | nil =>
    constructor
    · intro h
      simp [stableAfter] at h
      simp [h]
    · intro h
      simpa [stableAfter] using h.1
  | append_singleton l r ih =>
    rw [stableAfter_append]
    by_cases hq : qualifies minW minH r = true
    · rw [if_pos hq]
      cases K with
      | zero =>
        simp only [Nat.zero_le, true_iff, List.length_append,
          List.length_singleton, true_and]
        intro j hj1 hj2
        omega
      | succ K' =>
        rw [Nat.succ_le_succ_iff, ih]
        constructor
        · rintro ⟨hlen, hall⟩
          refine ⟨by simp; omega, ?_⟩
          intro j hj1 hj2
          simp only [List.length_append, List.length_singleton] at hj2
          rcases Nat.lt_succ_iff_lt_or_eq.mp hj2 with hlt | heq
          · rw [List.getD_append _ _ _ _ hlt]
            refine hall j ?_ hlt
            simp only [List.length_append, List.length_singleton] at hj1
            omega
          · subst heq
            rw [List.getD_append_right _ _ _ _ (le_refl _)]
            simpa using hq
        · rintro ⟨hlen, hall⟩
          simp only [List.length_append, List.length_singleton] at hlen hall
          refine ⟨by omega, ?_⟩
          intro j hj1 hj2
          have h1 : l.length + 1 - (K' + 1) ≤ j := by omega
          have := hall j h1 (by omega)
          rwa [List.getD_append _ _ _ _ hj2] at this
    · rw [if_neg hq]
      simp only [Bool.not_eq_true] at hq
      constructor
      · intro hK
        have hK0 : K = 0 := Nat.le_zero.mp hK
        subst hK0
        refine ⟨Nat.zero_le _, ?_⟩
        intro j hj1 hj2
        omega
      · rintro ⟨hlen, hall⟩
        by_contra hK
        have hKpos : 1 ≤ K := by omega
        have hj1 : (l ++ [r]).length - K ≤ l.length := by
          simp only [List.length_append, List.length_singleton]
          omega
        have hj2 : l.length < (l ++ [r]).length := by simp
        have := hall l.length hj1 hj2
        rw [List.getD_append_right _ _ _ _ (le_refl _)] at this
        simp [hq] at this

theorem getD_take (l : List Read) (n j : Nat) (hj : j < n) :
    (l.take n).getD j .fail = l.getD j .fail := by
  by_cases hl : j < l.length
  · rw [List.getD_eq_getElem _ _ (by simp; omega), List.getD_eq_getElem _ _ hl]
    exact List.getElem_take l
  · rw [List.getD_eq_default _ _ (by simp; omega),
      List.getD_eq_default _ _ (by omega)]

/-- C1: with stability requirement `K` (the code fixes
`K = stable_threshold = 3`), (i) a frame published at index `i` implies
`K ≤ i + 1` and the `K` reads ending at `i` all qualify — so no frame is
published until `K` consecutive qualifying reads have occurred; (ii) a
single disqualifying or failed read resets the stable count to zero;
(iii) accepting a frame does not reset the counter: the read following an
accepted one is again accepted whenever it qualifies. -/
theorem quality_gate_stability (minW minH K : Nat) (rs : List Read) (i : Nat) :
    (acceptedAt minW minH K rs i = true →
        K ≤ i + 1 ∧
          ∀ j, i + 1 - K ≤ j → j ≤ i →
            qualifies minW minH (rs.getD j .fail) = true) ∧
    (∀ (l : List Read) (r : Read), qualifies minW minH r = false →
        stableAfter minW minH (l ++ [r]) = 0) ∧
    (acceptedAt minW minH K rs i = true →
      qualifies minW minH (rs.getD (i + 1) .fail) = true →
      acceptedAt minW minH K rs (i + 1) = true) := by
  refine ⟨?_, ?_, ?_⟩
  · intro hacc
    rw [acceptedAt, Bool.and_eq_true, decide_eq_true_eq] at hacc
    obtain ⟨hq, hK⟩ := hacc
    have hi : i < rs.length := by
      by_contra hi
      rw [List.getD_eq_default _ _ (by omega)] at hq
      simp [qualifies] at hq
    have hlen : (rs.take (i + 1)).length = i + 1 := by
      simp
      omega
    rw [le_stableAfter_iff, hlen] at hK
    refine ⟨hK.1, ?_⟩
    intro j hj1 hj2
    have := hK.2 j hj1 (by omega)
    rwa [getD_take _ _ _ (by omega)] at this
  · intro l r hr
    rw [stableAfter_append, if_neg (by simp [hr])]
  · intro hacc hq1
    rw [acceptedAt, Bool.and_eq_true, decide_eq_true_eq] at hacc
    obtain ⟨hq, hK⟩ := hacc
    have hi : i < rs.length := by
      by_contra hi
      rw [List.getD_eq_default _ _ (by omega)] at hq
      simp [qualifies] at hq
    rw [acceptedAt, Bool.and_eq_true, decide_eq_true_eq]
    refine ⟨hq1, ?_⟩
    by_cases hi1 : i + 1 < rs.length
    · have htake : rs.take (i + 2) = rs.take (i + 1) ++ [rs.getD (i + 1) .fail] := by
        rw [List.take_succ, List.getD_eq_getElem _ _ hi1]
        simp [List.getElem?_eq_getElem hi1]
      rw [htake, stableAfter_append, if_pos hq1]
      omega
    · have : rs.take (i + 2) = rs.take (i + 1) := by
        rw [List.take_of_length_le (by omega), List.take_of_length_le (by omega)]
      rw [this]
      exact hK

/-- Reads matching the spec example: `[low, high, high, high]` against the
HD minimum `1280×720` with `K = 3`; the first accept happens exactly on the
4th read. -/
def exampleReads : List Read :=
  [.frame 640 480, .frame 1920 1080, .frame 1920 1080, .frame 1920 1080]

theorem quality_gate_stability_witness :
    acceptedAt min_hd_width min_hd_height stable_threshold exampleReads 3 = true ∧
      acceptedAt min_hd_width min_hd_height stable_threshold exampleReads 2 = false ∧
      (stable_threshold ≤ 3 + 1 ∧
        ∀ j, 3 + 1 - stable_threshold ≤ j → j ≤ 3 →
          qualifies min_hd_width min_hd_height (exampleReads.getD j .fail) = true) := by
  refine ⟨by decide, by decide, ?_⟩
  exact (quality_gate_stability min_hd_width min_hd_height stable_threshold
    exampleReads 3).1 (by decide)

/-! ## C2: the single-slot frame buffer

`self.frame_buffer` holds `raw_frame`, `processed_frame`, `timestamp`
(all guarded by `buffer_lock`); `frame_ready_event` is the "new data"
signal.  A publish is the buffer write in `_safe_video_loop` (lines
472–498); a take is the buffer read in `_update_display_optimized`
(lines 824–843).  With no concurrent access the lock-protected sections
are atomic state updates. -/

structure FrameSlot (α : Type) where
  raw_frame : Option α
  processed_frame : Option α
  timestamp : Nat
  new_data : Bool
deriving DecidableEq, Repr

/-- Initial buffer contents: `'raw_frame': None, 'processed_frame': None,
'timestamp': 0` with `frame_ready_event` unset. -/
def FrameSlot.empty (α : Type) : FrameSlot α := ⟨none, none, 0, false⟩

/-- One publish payload: the raw copy, the processed frame and the
`current_time` stamp written together under `buffer_lock`. -/
structure Publish (α : Type) where
  raw : α
  processed : α
  timestamp : Nat
deriving DecidableEq, Repr

/-- Write `frame_buffer['raw_frame'] = copy; frame_buffer['processed_frame'] =
processed; frame_buffer['timestamp'] = current_time; frame_ready_event.set()`
— every field of the slot is overwritten. -/
def publish {α : Type} (p : Publish α) (_b : FrameSlot α) : FrameSlot α :=
  ⟨some p.raw, some p.processed, p.timestamp, true⟩

/-- The buffer read of `_update_display_optimized`: return immediately with
no payload if `frame_ready_event` is unset; otherwise copy both slots out,
clear the event, and yield nothing when the processed slot is `None`. -/
def takeFrame {α : Type} (b : FrameSlot α) : Option (Option α × α) × FrameSlot α :=
  if b.new_data = false then (none, b)
  else
    let b' := { b with new_data := false }
    match b.processed_frame with
    | none => (none, b')
    | some pf => (some (b.raw_frame, pf), b')

/-- Folding a sequence of publishes over a starting buffer. -/
def publishAll {α : Type} (b : FrameSlot α) (ps : List (Publish α)) : FrameSlot α :=
  ps.foldl (fun b p => publish p b) b

theorem publishAll_concat {α : Type} (b : FrameSlot α) (ps : List (Publish α))
    (p : Publish α) : publishAll b (ps ++ [p]) =
      ⟨some p.raw, some p.processed, p.timestamp, true⟩ := by
  simp [publishAll, List.foldl_append, publish]

/-- C2: after any nonempty sequence of publishes with no concurrent
take, the slot holds exactly the last payload (each publish overwrites
the slot wholesale, independently of prior contents), and a take returns
exactly that payload — raw and processed of the same publish, never a
mix; a take on the never-published buffer returns `none`. -/
theorem frame_buffer_last_write_wins {α : Type} (b : FrameSlot α)
    (ps : List (Publish α)) (hne : ps ≠ []) :
    (∀ (p : Publish α) (b₁ b₂ : FrameSlot α), publish p b₁ = publish p b₂) ∧
    publishAll b ps =
      ⟨some (ps.getLast hne).raw, some (ps.getLast hne).processed,
        (ps.getLast hne).timestamp, true⟩ ∧
    takeFrame (publishAll b ps) =
      (some (some (ps.getLast hne).raw, (ps.getLast hne).processed),
        ⟨some (ps.getLast hne).raw, some (ps.getLast hne).processed,
          (ps.getLast hne).timestamp, false⟩) ∧
    takeFrame (FrameSlot.empty α) = (none, FrameSlot.empty α) := by
  have hslot : publishAll b ps =
      ⟨some (ps.getLast hne).raw, some (ps.getLast hne).processed,
        (ps.getLast hne).timestamp, true⟩ := by
    rcases List.eq_nil_or_concat ps with h1 | ⟨l, p, hps⟩
    · exact absurd h1 hne
    · rw [List.concat_eq_append] at hps
      subst hps
      rw [publishAll_concat]
      simp
  refine ⟨fun p b₁ b₂ => rfl, hslot, ?_, rfl⟩
  rw [hslot]
  rfl

theorem frame_buffer_last_write_wins_witness :
    publishAll (FrameSlot.empty Nat) [⟨1, 10, 100⟩, ⟨2, 20, 200⟩, ⟨3, 30, 300⟩] =
        ⟨some 3, some 30, 300, true⟩ ∧
      takeFrame (publishAll (FrameSlot.empty Nat)
          [⟨1, 10, 100⟩, ⟨2, 20, 200⟩, ⟨3, 30, 300⟩]) =
        (some (some 3, 30), ⟨some 3, some 30, 300, false⟩) := by
  have h := frame_buffer_last_write_wins (FrameSlot.empty Nat)
    [⟨1, 10, 100⟩, ⟨2, 20, 200⟩, ⟨3, 30, 300⟩] (by decide)
  exact ⟨h.2.1, h.2.2.1⟩

/-! ## C3: consecutive read-failure threshold

The failure branch of `_safe_video_loop` (lines 515–527):
`consecutive_failures += 1`, then
`if consecutive_failures > self.max_consecutive_failures:` release the
device (`_safe_close_camera`), sleep the cooldown, and reset
`consecutive_failures = 0`. -/

/-- One failed read: returns the new `consecutive_failures` value and
whether this failure released the device and entered the cooldown. -/
def failStep (maxF cf : Nat) : Nat × Bool :=
  if maxF < cf + 1 then (0, true) else (cf + 1, false)

/-- State after `n` consecutive failed reads starting from
`consecutive_failures = 0`: final counter value, and whether a release
happened during those `n` failures. -/
def runFailures (maxF : Nat) : Nat → Nat × Bool
  | 0 => (0, false)
  | n + 1 =>
    let s := runFailures maxF n
    let t := failStep maxF s.1
    (t.1, s.2 || t.2)

theorem runFailures_of_le (maxF : Nat) :
    ∀ n, n ≤ maxF → runFailures maxF n = (n, false) := by
  intro n
  induction n with
  | zero => intro _; rfl
  | succ k ih =>
    intro h
    rw [runFailures, ih (by omega), failStep, if_neg (by omega)]
    simp

/-- C3 counterexample: with the configured maximum of 15, a run of 15
consecutive read failures does *not* release the device (the code tests
`consecutive_failures > max`, a strict inequality); the release and
cooldown happen on the 16th failure. -/
theorem failure_threshold_strict_cx :
    (runFailures max_consecutive_failures 15).2 = false ∧
      (runFailures max_consecutive_failures 16).2 = true := by decide

/-- C3 amended: with maximum `maxF` (the code configures 15), the
first `maxF` consecutive failures cause no release and leave the counter
at `maxF`; the release and cooldown are entered exactly on failure
`maxF + 1` — the first failure whose count strictly exceeds the maximum —
after which the counter is reset to zero. -/
theorem failure_threshold_release (maxF n : Nat) :
    (n ≤ maxF → runFailures maxF n = (n, false)) ∧
    runFailures maxF (maxF + 1) = (0, true) := by
  refine ⟨runFailures_of_le maxF n, ?_⟩
  rw [runFailures, runFailures_of_le maxF maxF (le_refl _), failStep,
    if_pos (by omega)]
  simp

theorem failure_threshold_release_witness :
    runFailures max_consecutive_failures 15 = (15, false) ∧
      runFailures max_consecutive_failures 16 = (0, true) := by
  have h := failure_threshold_release max_consecutive_failures 15
  exact ⟨h.1 (by decide), h.2⟩

/-! ## C4: lifecycle requests and the restart-in-progress flag

`start_continuous_feed` (lines 284–323), `stop_continuous_feed`
(324–363) and `restart_feed` (365–407).  Each first checks the
mutex-guarded `restart_in_progress` flag (start additionally checks
`is_running`) and returns without touching any thread when the check
fails; otherwise it sets the flag, performs its work, and clears the
flag.  The capture thread is modelled as a count of live loop threads;
a stop joins the thread, which exits because `is_running` is false
(graceful-join semantics — the 5-second join timeout is not modelled). -/

structure Session where
  is_running : Bool
  should_be_running : Bool
  restart_in_progress : Bool
  stop_event : Bool
  live_threads : Nat
  initialization_attempts : Nat
deriving DecidableEq, Repr

/-- Flag state set in `__init__`. -/
def Session.initState : Session :=
  { is_running := false, should_be_running := true, restart_in_progress := false,
    stop_event := false, live_threads := 0, initialization_attempts := 0 }

/-- Method `start_continuous_feed`: no-op if already running or a restart is in
progress; otherwise clear the stop event, raise the running flags, reset
the init-attempt counter and spawn one capture-loop thread (the
`restart_in_progress` flag is set on entry and cleared before returning,
so its net value is false). -/
def start_continuous_feed (s : Session) : Session :=
  if s.is_running || s.restart_in_progress then s
  else
    { s with
      restart_in_progress := false, stop_event := false,
      is_running := true, should_be_running := true,
      initialization_attempts := 0, live_threads := s.live_threads + 1 }

/-- Method `stop_continuous_feed`: no-op if a restart is in progress; otherwise
lower the running flags, set the stop event and join the capture thread. -/
def stop_continuous_feed (s : Session) : Session :=
  if s.restart_in_progress then s
  else
    { s with
      restart_in_progress := false, should_be_running := false,
      is_running := false, stop_event := true, live_threads := 0 }

/-- Method `restart_feed`: no-op if a restart is in progress; otherwise stop the
loop when it is running, then clear the flag, reset the init-attempt
counter and call `start_continuous_feed`. -/
def restart_feed (s : Session) : Session :=
  if s.restart_in_progress then s
  else
    let s₁ :=
      if s.is_running then
        { s with
          should_be_running := false, is_running := false,
          stop_event := true, live_threads := 0 }
      else s
    start_continuous_feed
      { s₁ with restart_in_progress := false, initialization_attempts := 0 }

inductive FeedReq where
  | start : FeedReq
  | stop : FeedReq
  | restart : FeedReq
deriving DecidableEq, Repr

def applyReq (s : Session) : FeedReq → Session
  | .start => start_continuous_feed s
  | .stop => stop_continuous_feed s
  | .restart => restart_feed s

def runReqs (s : Session) (reqs : List FeedReq) : Session :=
  reqs.foldl applyReq s

/-- The state invariant enforced by the restart serialization: between
requests the flag is clear and exactly one capture thread is alive iff
the session is running. -/
def SessionInv (s : Session) : Prop :=
  s.restart_in_progress = false ∧
    s.live_threads = (if s.is_running then 1 else 0)

theorem sessionInv_applyReq (s : Session) (r : FeedReq)
    (h : SessionInv s) : SessionInv (applyReq s r) := by
  obtain ⟨hflag, hlive⟩ := h
  cases r with
  | start =>
    rw [applyReq, start_continuous_feed]
    split
    · exact ⟨hflag, hlive⟩
    · rename_i hcond
      rw [Bool.or_eq_true, not_or] at hcond
      refine ⟨rfl, ?_⟩
      simp only [if_true]
      rw [hlive, if_neg (by simpa using hcond.1)]
  | stop =>
    rw [applyReq, stop_continuous_feed]
    split
    · exact ⟨hflag, hlive⟩
    · exact ⟨rfl, by simp⟩
  | restart =>
    rw [applyReq, restart_feed, if_neg (by simp [hflag])]
    by_cases hr : s.is_running = true
    · simp only [if_pos hr]
      rw [start_continuous_feed, if_neg (by simp)]
      exact ⟨rfl, by simp⟩
    · simp only [if_neg hr]
      rw [start_continuous_feed, if_neg (by simp [hr])]
      refine ⟨rfl, ?_⟩
      have h0 : s.live_threads = 0 := by rw [hlive, if_neg hr]
      simp [h0]

theorem sessionInv_runReqs (reqs : List FeedReq) :
    ∀ s : Session, SessionInv s → SessionInv (runReqs s reqs) := by
  induction reqs with
  | nil => intro s h; exact h
  | cons r rest ih =>
    intro s h
    exact ih (applyReq s r) (sessionInv_applyReq s r h)

/-- C4: a request observing the restart-in-progress flag set — or, for
start, the session already running — is a no-op on the whole session
state; consequently, from the initial state, any sequence of
start/stop/restart requests leaves at most one capture-loop thread alive,
and two consecutive starts on the idle initial session create exactly
one. -/
theorem restart_serialization (s : Session) (r : FeedReq)
    (reqs : List FeedReq) :
    (s.restart_in_progress = true → applyReq s r = s) ∧
    (s.is_running = true → start_continuous_feed s = s) ∧
    (runReqs Session.initState reqs).live_threads ≤ 1 ∧
    (start_continuous_feed (start_continuous_feed Session.initState)).live_threads
      = 1 := by
  refine ⟨?_, ?_, ?_, by decide⟩
  · intro hflag
    cases r with
    | start => rw [applyReq, start_continuous_feed, if_pos (by simp [hflag])]
    | stop => rw [applyReq, stop_continuous_feed, if_pos hflag]
    | restart => rw [applyReq, restart_feed, if_pos hflag]
  · intro hrun
    rw [start_continuous_feed, if_pos (by simp [hrun])]
  · have h := sessionInv_runReqs reqs Session.initState ⟨rfl, rfl⟩
    rw [h.2]
    split <;> omega

theorem restart_serialization_witness :
    applyReq (⟨false, true, true, false, 0, 0⟩ : Session) .start =
        (⟨false, true, true, false, 0, 0⟩ : Session) ∧
    (runReqs Session.initState [.start, .start, .restart, .stop]).live_threads ≤ 1 ∧
    (start_continuous_feed (start_continuous_feed Session.initState)).live_threads
      = 1 := by
  have h := restart_serialization (⟨false, true, true, false, 0, 0⟩ : Session)
    .start [.start, .start, .restart, .stop]
  exact ⟨h.1 rfl, h.2.2.1, h.2.2.2⟩

/-! ## C5: watchdog triggers

The check body of `enhanced_watchdog` in `start_watchdog` (lines
880–936): skip when `restart_in_progress`; start when
`should_be_running and not is_running and not restart_in_progress`;
otherwise, when a `last_successful_frame` timestamp exists and is older
than 120 seconds, call `restart_feed`.  Timestamps are modelled in whole
seconds. -/

structure WatchView where
  should_be_running : Bool
  is_running : Bool
  restart_in_progress : Bool
  last_successful_frame : Option Nat
  now : Nat
deriving DecidableEq, Repr

inductive WatchAction where
  | start : WatchAction
  | restart : WatchAction
deriving DecidableEq, Repr

/-- One watchdog check, returning the action it issues, if any. -/
def watchdog_check (s : WatchView) : Option WatchAction :=
  if s.restart_in_progress then none
  else if s.should_be_running && !s.is_running && !s.restart_in_progress then
    some .start
  else
    match s.last_successful_frame with
    | none => none
    | some t => if 120 < s.now - t then some .restart else none

/-- C5 counterexample: a session that is not supposed to be running
and has no live capture thread, but whose last-success timestamp is
stale, is nevertheless restarted — the stale-connection branch never
checks `is_running` (or `should_be_running`). -/
theorem watchdog_restart_cx :
    watchdog_check (⟨false, false, false, some 0, 121⟩ : WatchView) =
        some .restart ∧
      (⟨false, false, false, some 0, 121⟩ : WatchView).is_running = false ∧
      (⟨false, false, false, some 0, 121⟩ : WatchView).should_be_running =
        false := by decide

/-- C5 amended: on every watchdog check, a start is issued exactly
when no restart is in progress, `should_be_running` holds and no live
capture thread exists; a forced restart is issued exactly when the start
trigger does not fire (the session is running, or is not supposed to be)
and a last-success timestamp exists that is older than the two-minute
stale window — regardless of whether a live thread exists, so a stopped
session with a stale timestamp is also restarted. -/
theorem watchdog_triggers (s : WatchView) :
    (watchdog_check s = some .start ↔
      s.restart_in_progress = false ∧ s.should_be_running = true ∧
        s.is_running = false) ∧
    (watchdog_check s = some .restart ↔
      s.restart_in_progress = false ∧
        (s.should_be_running = false ∨ s.is_running = true) ∧
        ∃ t, s.last_successful_frame = some t ∧ 120 < s.now - t) := by
  obtain ⟨sb, ir, rp, lf, n⟩ := s
  cases rp
  · cases sb <;> cases ir <;> cases lf <;>
      simp [watchdog_check] <;> omega
  · cases lf <;> simp [watchdog_check]

theorem watchdog_triggers_witness :
    watchdog_check (⟨true, false, false, none, 0⟩ : WatchView) = some .start ∧
      watchdog_check (⟨true, true, false, some 10, 200⟩ : WatchView) =
        some .restart := by
  have h₁ := (watchdog_triggers (⟨true, false, false, none, 0⟩ : WatchView)).1
  have h₂ :=
    (watchdog_triggers (⟨true, true, false, some 10, 200⟩ : WatchView)).2
  have hex : ∃ t,
      (⟨true, true, false, some 10, 200⟩ : WatchView).last_successful_frame =
          some t ∧
        120 < (⟨true, true, false, some 10, 200⟩ : WatchView).now - t :=
    ⟨10, rfl, by decide⟩
  exact ⟨h₁.mpr ⟨rfl, rfl, rfl⟩, h₂.mpr ⟨rfl, Or.inr rfl, hex⟩⟩

/-! ## C6: `save_image` (lines 1018–1111)

The filesystem and encoder are external: the fallback write for the
chosen filename is modelled as an oracle outcome (`cv2.imwrite`
returning a size-`n` file, returning `False`, or raising
`PermissionError` / `OSError` / any other exception).  A configured
`save_function` is an oracle `α → Bool`; an exception inside it behaves
exactly like returning `False` (both fall through to the fallback). -/

inductive WriteOutcome where
  | ok (size : Nat) : WriteOutcome
  | retFalse : WriteOutcome
  | permError : WriteOutcome
  | osError : WriteOutcome
  | otherError : WriteOutcome
deriving DecidableEq, Repr

/-- The distinct status messages `save_image` reports via
`_update_status_safe`. -/
inductive SaveStatus where
  | noImage : SaveStatus
  | savedViaFunction : SaveStatus
  | savedToFile : SaveStatus
  | fileEmpty : SaveStatus
  | writeError : SaveStatus
  | permissionDenied : SaveStatus
  | diskError : SaveStatus
  | fallbackError : SaveStatus
deriving DecidableEq, Repr

structure SaveResult (α : Type) where
  success : Bool
  status : SaveStatus
  captured_image : Option α
  wrote_file : Bool
deriving DecidableEq, Repr

/-- Method `save_image`: nothing-to-save short-circuit, configured save function
first, then the fallback write with the non-empty verification
(`os.path.exists(filename) and os.path.getsize(filename) > 0`) and the
per-exception status reporting; `captured_image` is cleared only on the
success paths.  `wrote_file` records whether the fallback write was
attempted. -/
def save_image {α : Type} (save_function : Option (α → Bool))
    (wo : WriteOutcome) (captured : Option α) : SaveResult α :=
  match captured with
  | none => ⟨false, .noImage, none, false⟩
  | some img =>
    let fallback : SaveResult α :=
      match wo with
      | .ok size =>
        if 0 < size then ⟨true, .savedToFile, none, true⟩
        else ⟨false, .fileEmpty, some img, true⟩
      | .retFalse => ⟨false, .writeError, some img, true⟩
      | .permError => ⟨false, .permissionDenied, some img, true⟩
      | .osError => ⟨false, .diskError, some img, true⟩
      | .otherError => ⟨false, .fallbackError, some img, true⟩
    match save_function with
    | some f => if f img then ⟨true, .savedViaFunction, none, false⟩ else fallback
    | none => fallback

/-- C6 counterexample: with a configured save function that reports
success, `save_image` clears the pending image and reports success
without any write or file verification by this code — so "reports
success only after the written file has been verified non-empty" fails
as a statement about every save. -/
theorem save_image_unverified_success_cx :
    save_image (α := Nat) (some fun _ => true) .retFalse (some 7) =
      ⟨true, .savedViaFunction, none, false⟩ := by decide

/-- C6 amended: if no image has been captured, save reports the
nothing-to-save status without writing.  On the default (fallback) path —
no save function, or the configured one fails — success is reported and
the pending image cleared exactly when the written file verifies
non-empty; every I/O failure kind maps to its own distinct status, the
pending image is retained unchanged, and the result is failure (the
embedding is a total function: no exception escapes).  A configured save
function that reports success clears the pending image and reports
success without this code verifying any file. -/
theorem save_image_retention {α : Type} (f : α → Bool) (wo : WriteOutcome)
    (img : α) :
    (∀ sf : Option (α → Bool), save_image sf wo (none : Option α) =
      ⟨false, .noImage, none, false⟩) ∧
    (f img = false →
      save_image (some f) wo (some img) = save_image none wo (some img)) ∧
    ((save_image (α := α) none wo (some img)).success = true ↔
      ∃ n, wo = .ok n ∧ 0 < n) ∧
    ((save_image (α := α) none wo (some img)).success = true →
      (save_image (α := α) none wo (some img)).captured_image = none) ∧
    ((save_image (α := α) none wo (some img)).success = false →
      (save_image (α := α) none wo (some img)).captured_image = some img) ∧
    (save_image (α := α) none wo (some img)).status =
      (match wo with
        | .ok n => if 0 < n then .savedToFile else .fileEmpty
        | .retFalse => .writeError
        | .permError => .permissionDenied
        | .osError => .diskError
        | .otherError => .fallbackError) ∧
    (f img = true →
      save_image (some f) wo (some img) =
        ⟨true, .savedViaFunction, none, false⟩) := by
  refine ⟨fun sf => by cases sf <;> rfl, ?_, ?_, ?_, ?_, ?_, ?_⟩
  · intro hf
    simp [save_image, hf]
  · cases wo with
    | ok n =>
      by_cases hn : 0 < n <;> simp [save_image, hn]
    | retFalse => simp [save_image]
    | permError => simp [save_image]
    | osError => simp [save_image]
    | otherError => simp [save_image]
  · cases wo with
    | ok n =>
      by_cases hn : 0 < n <;> simp [save_image, hn]
    | retFalse => simp [save_image]
    | permError => simp [save_image]
    | osError => simp [save_image]
    | otherError => simp [save_image]
  · cases wo with
    | ok n =>
      by_cases hn : 0 < n <;> simp [save_image, hn]
    | retFalse => simp [save_image]
    | permError => simp [save_image]
    | osError => simp [save_image]
    | otherError => simp [save_image]
  · cases wo with
    | ok n =>
      by_cases hn : 0 < n <;> simp [save_image, hn]
    | retFalse => rfl
    | permError => rfl
    | osError => rfl
    | otherError => rfl
  · intro hf
    simp [save_image, hf]

theorem save_image_retention_witness :
    save_image (α := Nat) (some fun _ => false) .permError (some 7) =
        save_image none .permError (some 7) ∧
      save_image (α := Nat) none .permError (some 7) =
        ⟨false, .permissionDenied, some 7, true⟩ ∧
      save_image (α := Nat) none (.ok 42) (some 7) =
        ⟨true, .savedToFile, none, true⟩ ∧
      save_image (α := Nat) (some fun _ => true) (.ok 0) (none : Option Nat) =
        ⟨false, .noImage, none, false⟩ := by
  have h := save_image_retention (fun _ : Nat => false) .permError 7
  exact ⟨h.2.1 rfl, by decide, by decide,
    (save_image_retention (fun _ : Nat => true) (.ok 0) 7).1
      (some fun _ => true)⟩

/-! ## C7: `_adjust_performance` (lines 741–758)

`if self.cpu_usage > 85: target_fps = max(min_fps, target_fps - 1)`
`elif self.cpu_usage < 50: target_fps = min(max_fps, target_fps + 0.5)`.
The quantities involved (steps of 1 and 0.5, integer bounds) are exact
in binary floating point, so ℚ is a faithful carrier. -/

def adjust_performance (minF maxF cpu fps : ℚ) : ℚ :=
  if 85 < cpu then max minF (fps - 1)
  else if cpu < 50 then min maxF (fps + 1 / 2)
  else fps

/-- Value of `target_fps` after a sequence of resource-monitor samples. -/
def adjustRun (minF maxF fps : ℚ) (cpus : List ℚ) : ℚ :=
  cpus.foldl (fun f c => adjust_performance minF maxF c f) fps

theorem adjust_performance_mem (minF maxF cpu fps : ℚ) (hb : minF ≤ maxF)
    (h1 : minF ≤ fps) (h2 : fps ≤ maxF) :
    minF ≤ adjust_performance minF maxF cpu fps ∧
      adjust_performance minF maxF cpu fps ≤ maxF := by
  rw [adjust_performance]
  split
  · constructor
    · exact le_max_left _ _
    · apply max_le hb
      linarith
  · split
    · constructor
      · apply le_min (le_trans h1 h2)
        linarith
      · exact min_le_left _ _
    · exact ⟨h1, h2⟩

theorem adjustRun_mem (minF maxF : ℚ) (hb : minF ≤ maxF) (cpus : List ℚ) :
    ∀ fps : ℚ, minF ≤ fps → fps ≤ maxF →
      minF ≤ adjustRun minF maxF fps cpus ∧
        adjustRun minF maxF fps cpus ≤ maxF := by
  induction cpus with
  | nil => intro fps h1 h2; exact ⟨h1, h2⟩
  | cons c rest ih =>
    intro fps h1 h2
    have hc := adjust_performance_mem minF maxF c fps hb h1 h2
    exact ih (adjust_performance minF maxF c fps) hc.1 hc.2

/-- C7: starting from a target FPS inside `[min_fps, max_fps]`, every
sequence of CPU samples keeps the adjusted target inside the bounds; each
step lowers by the fixed step 1 (clamped below) when CPU exceeds the 85%
high-water mark, raises by the fixed step 0.5 (clamped above) when CPU is
under the 50% low-water mark, and leaves the target unchanged otherwise. -/
theorem resource_monitor_fps_bounds (minF maxF fps : ℚ) (cpus : List ℚ)
    (cpu : ℚ) (hb : minF ≤ maxF) (h1 : minF ≤ fps) (h2 : fps ≤ maxF) :
    (minF ≤ adjustRun minF maxF fps cpus ∧
      adjustRun minF maxF fps cpus ≤ maxF) ∧
    (85 < cpu → adjust_performance minF maxF cpu fps = max minF (fps - 1)) ∧
    (cpu < 50 → ¬85 < cpu →
      adjust_performance minF maxF cpu fps = min maxF (fps + 1 / 2)) ∧
    (¬85 < cpu → ¬cpu < 50 → adjust_performance minF maxF cpu fps = fps) := by
  refine ⟨adjustRun_mem minF maxF hb cpus fps h1 h2, ?_, ?_, ?_⟩
  · intro h
    rw [adjust_performance, if_pos h]
  · intro hlo hhi
    rw [adjust_performance, if_neg hhi, if_pos hlo]
  · intro hhi hlo
    rw [adjust_performance, if_neg hhi, if_neg hlo]

theorem resource_monitor_fps_bounds_witness :
    (min_fps ≤ adjustRun min_fps max_fps 25 [100, 100, 100, 100] ∧
      adjustRun min_fps max_fps 25 [100, 100, 100, 100] ≤ max_fps) ∧
      adjust_performance min_fps max_fps 100 25 = max min_fps (25 - 1) := by
  have h := resource_monitor_fps_bounds min_fps max_fps 25
    [100, 100, 100, 100] 100 (by norm_num [min_fps, max_fps])
    (by norm_num [min_fps]) (by norm_num [max_fps])
  exact ⟨h.1, h.2.1 (by norm_num)⟩

/-! ## C8: collision-free filename generation (lines 1056–1063)

```
counter = 1
original_filename = filename
while os.path.exists(filename):
    base_name = original_filename.rsplit(".", 1)[0]
    extension = original_filename.rsplit(".", 1)[1]
    filename = f"\x7bbase_name\x7d_\x7bcounter:03d\x7d.\x7bextension\x7d"
    counter += 1
```

Candidate names are modelled structurally: the plain base name, or the
base with the zero-padded numeric suffix `_NNN` (the counter value; the
`%03d` formatting is injective, which the constructor encodes).  The set
of already-existing paths is a finite set of such names. -/

inductive SavePath (β : Type) where
  | plain (b : β) : SavePath β
  | suffixed (b : β) (counter : Nat) : SavePath β
deriving DecidableEq, Repr

/-- The `while os.path.exists(filename)` loop from counter `i`: try
`base_i`, `base_(i+1)`, … while they exist.  The loop terminates because
`existing` is finite; the fuel below is a bound on the number of
iterations, shown sufficient in `findFreeSuffix_spec`. -/
def findFreeSuffix {β : Type} [DecidableEq β] (existing : Finset (SavePath β))
    (b : β) : Nat → Nat → SavePath β
  | 0, i => .suffixed b i
  | fuel + 1, i =>
    if .suffixed b i ∈ existing then findFreeSuffix existing b fuel (i + 1)
    else .suffixed b i

/-- The whole naming policy: the base filename as-is when it does not
exist, otherwise the first free suffixed name starting from counter 1. -/
def uniqueSavePath {β : Type} [DecidableEq β] (existing : Finset (SavePath β))
    (b : β) : SavePath β :=
  if .plain b ∈ existing then
    findFreeSuffix existing b (existing.card + 1) 1
  else .plain b

theorem suffixed_injective {β : Type} (b : β) :
    Function.Injective (fun n => SavePath.suffixed b n) := by
  intro m n h
  simpa using h

/-- Among any `existing.card + 1` consecutive candidate suffixes, at
least one name is free. -/
theorem exists_free_suffix {β : Type} [DecidableEq β]
    (existing : Finset (SavePath β)) (b : β) (i : Nat) :
    ∃ j, i ≤ j ∧ j < i + (existing.card + 1) ∧
      SavePath.suffixed b j ∉ existing := by
  by_contra hall
  push_neg at hall
  have hsub : (Finset.Icc i (i + existing.card)).image
      (fun n => SavePath.suffixed b n) ⊆ existing := by
    intro x hx
    rw [Finset.mem_image] at hx
    obtain ⟨j, hj, rfl⟩ := hx
    rw [Finset.mem_Icc] at hj
    exact hall j hj.1 (by omega)
  have hcard := Finset.card_le_card hsub
  rw [Finset.card_image_of_injective _ (suffixed_injective b),
    Nat.card_Icc] at hcard
  omega

theorem findFreeSuffix_spec {β : Type} [DecidableEq β]
    (existing : Finset (SavePath β)) (b : β) :
    ∀ (fuel i : Nat),
      (∃ j, i ≤ j ∧ j < i + fuel ∧ SavePath.suffixed b j ∉ existing) →
      ∃ k, i ≤ k ∧ findFreeSuffix existing b fuel i = .suffixed b k ∧
        SavePath.suffixed b k ∉ existing ∧
        ∀ j, i ≤ j → j < k → SavePath.suffixed b j ∈ existing := by
  intro fuel
  induction fuel with
  | zero =>
    intro i h
    obtain ⟨j, hj1, hj2, _⟩ := h
    omega
  | succ fuel ih =>
    intro i h
    rw [findFreeSuffix]
    by_cases hmem : SavePath.suffixed b i ∈ existing
    · rw [if_pos hmem]
      obtain ⟨j, hj1, hj2, hj3⟩ := h
      have hji : j ≠ i := fun hji => hj3 (hji ▸ hmem)
      obtain ⟨k, hk1, hk2, hk3, hk4⟩ :=
        ih (i + 1) ⟨j, by omega, by omega, hj3⟩
      refine ⟨k, by omega, hk2, hk3, ?_⟩
      intro j' hj'1 hj'2
      rcases Nat.eq_or_lt_of_le hj'1 with heq | hlt
      · exact heq ▸ hmem
      · exact hk4 j' hlt hj'2
    · rw [if_neg hmem]
      exact ⟨i, le_refl i, rfl, hmem, fun j hj1 hj2 => by omega⟩

/-- C8: the default path policy is deterministic (a pure function of
the base name and the set of existing paths), uses the base name as-is
when it is free, otherwise picks the suffixed name with the least counter
`k ≥ 1` that does not exist — every smaller counter collides — and the
chosen name never collides with an existing path. -/
theorem unique_save_path_first_free {β : Type} [DecidableEq β]
    (existing : Finset (SavePath β)) (b : β) :
    (SavePath.plain b ∉ existing → uniqueSavePath existing b = .plain b) ∧
    (SavePath.plain b ∈ existing →
      ∃ k, 1 ≤ k ∧ uniqueSavePath existing b = .suffixed b k ∧
        SavePath.suffixed b k ∉ existing ∧
        ∀ j, 1 ≤ j → j < k → SavePath.suffixed b j ∈ existing) ∧
    uniqueSavePath existing b ∉ existing := by
  have hfree : ∀ h : SavePath.plain b ∈ existing,
      ∃ k, 1 ≤ k ∧ uniqueSavePath existing b = .suffixed b k ∧
        SavePath.suffixed b k ∉ existing ∧
        ∀ j, 1 ≤ j → j < k → SavePath.suffixed b j ∈ existing := by
    intro h
    rw [uniqueSavePath, if_pos h]
    exact findFreeSuffix_spec existing b (existing.card + 1) 1
      (exists_free_suffix existing b 1)
  refine ⟨?_, hfree, ?_⟩
  · intro h
    rw [uniqueSavePath, if_neg h]
  · by_cases h : SavePath.plain b ∈ existing
    · obtain ⟨k, _, hk2, hk3, _⟩ := hfree h
      rw [hk2]
      exact hk3
    · rw [uniqueSavePath, if_neg h]
      exact h

/-- A concrete colliding filesystem: the base name and the first two
suffixed names already exist. -/
def exampleExisting : Finset (SavePath Unit) :=
  {.plain (), .suffixed () 1, .suffixed () 2}

theorem unique_save_path_first_free_witness :
    (∃ k, 1 ≤ k ∧ uniqueSavePath exampleExisting () = .suffixed () k ∧
        SavePath.suffixed () k ∉ exampleExisting ∧
        ∀ j, 1 ≤ j → j < k → SavePath.suffixed () j ∈ exampleExisting) ∧
      uniqueSavePath exampleExisting () = .suffixed () 3 :=
  ⟨(unique_save_path_first_free exampleExisting ()).2.1 (by decide), by decide⟩

/-! ## C9, C10: `apply_zoom_and_pan` (lines 1242–1264) and
`_process_frame_optimized` (lines 760–776)

A frame is a row-major pixel grid.  Python's `int(w / zoom)` truncates
the positive quotient, i.e. takes its floor; `//` on the non-negative
operands involved coincides with integer division.  `cv2.resize` is
modelled as index-sampling to the target geometry (the interpolation
arithmetic of `INTER_LINEAR` is not claim-relevant); it raises on an
empty source, which the surrounding `except` turns into returning the
input frame unchanged. -/

abbrev Frame (α : Type) := List (List α)

def frameHeight {α : Type} (f : Frame α) : Nat := f.length

def frameWidth {α : Type} (f : Frame α) : Nat := (f.headD []).length

/-- Row lengths match the advertised geometry (`frame.shape[:2]` of a
rectangular array). -/
def FrameWF {α : Type} (w h : Nat) (f : Frame α) : Prop :=
  f.length = h ∧ ∀ row ∈ f, row.length = w

structure CropRect where
  x1 : Int
  y1 : Int
  x2 : Int
  y2 : Int
deriving DecidableEq, Repr

/-- The crop rectangle computed by `apply_zoom_and_pan`:
`zoom_w = int(w / zoom)`, `zoom_h = int(h / zoom)`,
`center = (w // 2 + int(pan_x), h // 2 + int(pan_y))`,
`x1 = max(0, center_x - zoom_w // 2)`, `y1 = max(0, center_y - zoom_h // 2)`,
`x2 = min(w, x1 + zoom_w)`, `y2 = min(h, y1 + zoom_h)`. -/
def crop_rect (w h : Nat) (zoom : ℚ) (panX panY : Int) : CropRect :=
  let zw : Int := ⌊(w : ℚ) / zoom⌋
  let zh : Int := ⌊(h : ℚ) / zoom⌋
  let cx : Int := (w : Int) / 2 + panX
  let cy : Int := (h : Int) / 2 + panY
  let x1 := max 0 (cx - zw / 2)
  let y1 := max 0 (cy - zh / 2)
  ⟨x1, y1, min (w : Int) (x1 + zw), min (h : Int) (y1 + zh)⟩

/-- Slice `cropped = frame[y1:y2, x1:x2]` (all four bounds are non-negative
when produced by `crop_rect`). -/
def cropFrame {α : Type} (r : CropRect) (f : Frame α) : Frame α :=
  ((f.drop r.y1.toNat).take (r.y2 - r.y1).toNat).map
    (fun row => (row.drop r.x1.toNat).take (r.x2 - r.x1).toNat)

/-- Call `cv2.resize(cropped, (tw, th))` at the geometry level: the output is
a `th × tw` grid sampled from the source. -/
def resizeTo {α : Type} [Inhabited α] (tw th : Nat) (f : Frame α) : Frame α :=
  (List.range th).map fun i =>
    (List.range tw).map fun j =>
      (f.getD (i * f.length / th) []).getD (j * frameWidth f / tw) default

/-- Method `apply_zoom_and_pan`: identity for `zoom <= 1.0`; otherwise crop the
clamped rectangle and resize back to `(w, h)`; if the crop is empty the
resize raises and the `except` handler returns the input frame. -/
def apply_zoom_and_pan {α : Type} [Inhabited α] (zoom : ℚ) (panX panY : Int)
    (f : Frame α) : Frame α :=
  if zoom ≤ 1 then f
  else if frameHeight (cropFrame (crop_rect (frameWidth f) (frameHeight f)
        zoom panX panY) f) = 0 ∨
      frameWidth (cropFrame (crop_rect (frameWidth f) (frameHeight f)
        zoom panX panY) f) = 0 then f
  else
    resizeTo (frameWidth f) (frameHeight f)
      (cropFrame (crop_rect (frameWidth f) (frameHeight f) zoom panX panY) f)

/-- Method `_process_frame_optimized`: apply zoom/pan when
`zoom_level > 1.0 or pan_x != 0 or pan_y != 0`; the watermark call is a
no-op (`pass`). -/
def process_frame_optimized {α : Type} [Inhabited α] (zoom : ℚ)
    (panX panY : Int) (f : Frame α) : Frame α :=
  if 1 < zoom ∨ panX ≠ 0 ∨ panY ≠ 0 then apply_zoom_and_pan zoom panX panY f
  else f

theorem resizeTo_wf {α : Type} [Inhabited α] (tw th : Nat) (f : Frame α) :
    FrameWF tw th (resizeTo tw th f) := by
  constructor
  · simp [resizeTo]
  · intro row hrow
    simp only [resizeTo, List.mem_map, List.mem_range] at hrow
    obtain ⟨i, _, rfl⟩ := hrow
    simp

theorem frameWidth_of_wf {α : Type} {w h : Nat} {f : Frame α}
    (hh : 0 < h) (hf : FrameWF w h f) : frameWidth f = w := by
  obtain ⟨hlen, hrows⟩ := hf
  cases f with
  | nil => simp at hlen; omega
  | cons row rest =>
    exact hrows row (List.mem_cons_self row rest)

/-- C9: for `zoom > 1` the computed crop rectangle is clamped inside
the frame bounds `[0, w] × [0, h]` — its corners satisfy
`0 ≤ x1`, `0 ≤ y1`, `x2 ≤ w`, `y2 ≤ h`, so every pixel position inside
the rectangle lies inside the frame — and the resulting frame has
exactly the original `w × h` geometry; in particular for zoom 2.0 and
pan `(50, -20)` on a 640×480 frame the rectangle is the in-bounds
`(210, 100)–(530, 340)` and the output is exactly 640×480. -/
theorem zoom_crop_clamped {α : Type} [Inhabited α] (w h : Nat) (zoom : ℚ)
    (panX panY : Int) (f : Frame α) (_hw : 0 < w) (hh : 0 < h)
    (hz : 1 < zoom) (hf : FrameWF w h f) :
    (0 ≤ (crop_rect w h zoom panX panY).x1 ∧
      0 ≤ (crop_rect w h zoom panX panY).y1 ∧
      (crop_rect w h zoom panX panY).x2 ≤ (w : Int) ∧
      (crop_rect w h zoom panX panY).y2 ≤ (h : Int)) ∧
    (∀ x y : Int, (crop_rect w h zoom panX panY).x1 ≤ x →
      x < (crop_rect w h zoom panX panY).x2 →
      (crop_rect w h zoom panX panY).y1 ≤ y →
      y < (crop_rect w h zoom panX panY).y2 →
      0 ≤ x ∧ x < (w : Int) ∧ 0 ≤ y ∧ y < (h : Int)) ∧
    FrameWF w h (apply_zoom_and_pan zoom panX panY f) ∧
    crop_rect 640 480 2 50 (-20) = ⟨210, 100, 530, 340⟩ := by
  have hcorners : 0 ≤ (crop_rect w h zoom panX panY).x1 ∧
      0 ≤ (crop_rect w h zoom panX panY).y1 ∧
      (crop_rect w h zoom panX panY).x2 ≤ (w : Int) ∧
      (crop_rect w h zoom panX panY).y2 ≤ (h : Int) := by
    refine ⟨le_max_left _ _, le_max_left _ _, min_le_left _ _, min_le_left _ _⟩
  refine ⟨hcorners, ?_, ?_, by norm_num [crop_rect]⟩
  · intro x y hx1 hx2 hy1 hy2
    obtain ⟨c1, c2, c3, c4⟩ := hcorners
    exact ⟨le_trans c1 hx1, lt_of_lt_of_le hx2 c3,
      le_trans c2 hy1, lt_of_lt_of_le hy2 c4⟩
  · have hW : frameWidth f = w := frameWidth_of_wf hh hf
    have hH : frameHeight f = h := hf.1
    rw [apply_zoom_and_pan, if_neg (not_le.mpr hz), hW, hH]
    split
    · exact hf
    · exact resizeTo_wf w h _

/-- A concrete rectangular 4×2 frame for the C9 witness. -/
def exampleFrame : Frame Nat := [[0, 1, 2, 3], [4, 5, 6, 7]]

theorem zoom_crop_clamped_witness :
    FrameWF 4 2 exampleFrame ∧
      FrameWF 4 2 (apply_zoom_and_pan 2 1 (-1) exampleFrame) ∧
      crop_rect 640 480 2 50 (-20) = ⟨210, 100, 530, 340⟩ := by
  have hwf : FrameWF 4 2 exampleFrame := by
    constructor
    · rfl
    · decide
  have h := zoom_crop_clamped 4 2 2 1 (-1) exampleFrame (by decide) (by decide)
    (by norm_num) hwf
  exact ⟨hwf, h.2.2.1, h.2.2.2⟩

/-- C10: with zoom at most 1.0 the zoom-and-pan transform is the
identity on the frame, whatever the pan offsets; hence
`_process_frame_optimized` — which invokes the transform whenever the
pan offsets are non-zero even without zoom — also leaves the frame
unchanged. -/
theorem pan_without_zoom_identity {α : Type} [Inhabited α] (zoom : ℚ)
    (panX panY : Int) (f : Frame α) (hz : zoom ≤ 1) :
    apply_zoom_and_pan zoom panX panY f = f ∧
      process_frame_optimized zoom panX panY f = f := by
  have h1 : apply_zoom_and_pan zoom panX panY f = f := by
    rw [apply_zoom_and_pan, if_pos hz]
  refine ⟨h1, ?_⟩
  rw [process_frame_optimized]
  split
  · exact h1
  · rfl

theorem pan_without_zoom_identity_witness :
    apply_zoom_and_pan 1 5 (-3) exampleFrame = exampleFrame ∧
      process_frame_optimized 1 5 (-3) exampleFrame = exampleFrame :=
  pan_without_zoom_identity 1 5 (-3) exampleFrame (by norm_num)

end AdexHD
